import Mathlib

/-!
Verification of the plate-geometry inference subsystem of bioio-nd2
(src/bioio_nd2/plates.py), shallowly embedded in Lean 4.

Python floats are modelled as rationals (ℚ); all constants appearing in the
code (126.6, 85.7, 14.3, 11.36, 9000.0, 1000.0) are exactly representable,
so the embedding is faithful for the properties considered here.

Python dictionaries (built by insertion in loop order, with distinct keys)
are modelled as association lists in insertion order; dictionary lookup is
List.lookup / positional access.

Exceptions raised by the Python code are modelled by an Except value whose
error constructors follow the spec's error taxonomy:
  * missingPositionMetadata — RuntimeError "does not contain XYPosLoop ..."
  * emptyPoints             — numpy ValueError from max()/min() of an empty
                              position list
  * unsupportedPlateGeometry — RuntimeError "stage extents exceed 96-well
                              geometry", carrying observed and expected extents
  * lookupError             — Python KeyError from position_xy[pos_index]
  * emptyWells              — Python ValueError from min() of an empty well
                              sequence in find_closest_well
-/

namespace BioioNd2

/-- Logical well identifier (plates.py, class WellPosition). -/
structure WellPosition where
  row : String
  col : String
deriving DecidableEq

/-- Physical well geometry (plates.py, class PlateWell). -/
structure PlateWell where
  row : String
  col : String
  center_x : ℚ
  center_y : ℚ
deriving DecidableEq

/-- Physical and logical definition of a multiwell plate
(plates.py, class PlateSpec). -/
structure PlateSpec where
  name : String
  rows : List String
  cols : List String
  plate_width_mm : ℚ
  plate_height_mm : ℚ
  a1_offset_mm : ℚ × ℚ
  well_spacing_um : ℚ
deriving DecidableEq

/-- One stage position record of an XYPosLoop experiment entry:
models p.stagePositionUm.x / p.stagePositionUm.y of the nd2 library. -/
structure StagePoint where
  stagePositionUm_x : ℚ
  stagePositionUm_y : ℚ
deriving DecidableEq

/-- One entry of rdr.experiment. hasXYPosLoop models the check
"XYPosLoop" in str(exp); points models exp.parameters.points (present
exactly on the XYPosLoop entry, empty list otherwise). -/
structure Experiment where
  hasXYPosLoop : Bool
  points : List StagePoint
deriving DecidableEq

/-- Error taxonomy of the plate subsystem (see module docstring above). -/
inductive PlateError where
  | missingPositionMetadata : PlateError
  | emptyPoints : PlateError
  | unsupportedPlateGeometry (x_extent y_extent full_96_x full_96_y : ℚ) : PlateError
  | lookupError (pos_index : ℤ) : PlateError
  | emptyWells : PlateError
deriving DecidableEq

/-- PLATE_96 catalog entry (plates.py lines 56-64). rows is
list("ABCDEFGH")[::-1]; cols is [str(i) for i in range(1, 13)]. -/
def PLATE_96 : PlateSpec where
  name := "96"
  rows := (["A", "B", "C", "D", "E", "F", "G", "H"] : List String).reverse
  cols := (List.range 12).map (fun i => toString (i + 1))
  plate_width_mm := 126.6
  plate_height_mm := 85.7
  a1_offset_mm := (14.3, 11.36)
  well_spacing_um := 9000.0

/-- max of a list, numpy-style: None on the empty list
(np.array([]).max() raises ValueError). -/
def listMax : List ℚ → Option ℚ
  | [] => none
  | a :: l => some (l.foldl max a)

/-- min of a list, numpy-style: None on the empty list. -/
def listMin : List ℚ → Option ℚ
  | [] => none
  | a :: l => some (l.foldl min a)

/-- max - min of a list, None on the empty list. -/
def extentOf : List ℚ → Option ℚ
  | [] => none
  | a :: l => some (l.foldl max a - l.foldl min a)

/-- Tolerance for 96-well dimensions (µm), plates.py line 82. -/
def tolerance_um : ℚ := 1000.0

/-- Expected full 96-well plate x extent, plates.py line 102. -/
def full_96_x : ℚ := ((PLATE_96.cols.length : ℚ) - 1) * PLATE_96.well_spacing_um

/-- Expected full 96-well plate y extent, plates.py line 103. -/
def full_96_y : ℚ := ((PLATE_96.rows.length : ℚ) - 1) * PLATE_96.well_spacing_um

/-- Sign-negated x coordinates of the points, plates.py line 95. -/
def negXs (points : List StagePoint) : List ℚ :=
  points.map (fun p => -p.stagePositionUm_x)

/-- Sign-negated y coordinates of the points, plates.py line 96. -/
def negYs (points : List StagePoint) : List ℚ :=
  points.map (fun p => -p.stagePositionUm_y)

/-- determine_plate_spec (plates.py lines 67-114). The for/else loop over
rdr.experiment breaking at the first entry whose str contains "XYPosLoop"
is List.find?; the else-branch raise is missingPositionMetadata. -/
def determine_plate_spec (experiment : List Experiment) : Except PlateError PlateSpec :=
  match experiment.find? (fun e => e.hasXYPosLoop) with
  | none => .error .missingPositionMetadata
  | some exp =>
    match extentOf (negXs exp.points), extentOf (negYs exp.points) with
    | some x_extent, some y_extent =>
      if x_extent ≤ full_96_x + tolerance_um ∧ y_extent ≤ full_96_y + tolerance_um then
        .ok PLATE_96
      else
        .error (.unsupportedPlateGeometry x_extent y_extent full_96_x full_96_y)
    | _, _ => .error .emptyPoints

/-- generate_plate_geometry (plates.py lines 117-139): row-major nested
loop over enumerate(spec.rows) and enumerate(spec.cols). -/
def generate_plate_geometry (spec : PlateSpec) : List PlateWell :=
  let a1_center_x : ℚ := spec.a1_offset_mm.1 * 1000 - spec.plate_width_mm / 2 * 1000
  let a1_center_y : ℚ := spec.a1_offset_mm.2 * 1000 - spec.plate_height_mm / 2 * 1000
  (spec.rows.enum.map (fun rr =>
    spec.cols.enum.map (fun cc =>
      { row := rr.2
        col := cc.2
        center_x := a1_center_x + (cc.1 : ℚ) * spec.well_spacing_um
        center_y := a1_center_y + (rr.1 : ℚ) * spec.well_spacing_um : PlateWell }))).flatten

/-- extract_position_stage_xy_um (plates.py lines 158-187): locates the
XYPosLoop entry exactly as determine_plate_spec, then builds the dict
position_index -> (-x, -y) by enumerate(points). -/
def extract_position_stage_xy_um (experiment : List Experiment) :
    Except PlateError (List (ℤ × (ℚ × ℚ))) :=
  match experiment.find? (fun e => e.hasXYPosLoop) with
  | none => .error .missingPositionMetadata
  | some exp =>
    .ok (exp.points.enum.map (fun ip =>
      ((ip.1 : ℤ), (-ip.2.stagePositionUm_x, -ip.2.stagePositionUm_y))))

/-- Metadata record holding an optional integer index field:
models an nd2 Position record, where getattr(pos, "index", None) may be
absent (none). -/
structure PositionMeta where
  index : Option ℤ
deriving DecidableEq

/-- First channel of a frame's metadata; position models
getattr(channel, "position", None). -/
structure FrameChannelMeta where
  position : Option PositionMeta
deriving DecidableEq

/-- Per-scene frame metadata record. position models
getattr(fm, "position", None); firstChannel models
getattr(fm, "channels", [None])[0], none when the channels attribute is
absent (the [None] default). -/
structure FrameMetadata where
  position : Option PositionMeta
  firstChannel : Option FrameChannelMeta
deriving DecidableEq

/-- Python truthiness of an optional integer: None is falsy, 0 is falsy,
every other integer is truthy. truthyOr a b models the Python
expression a or b. -/
def truthyOr (a : Option ℤ) (b : ℤ) : ℤ :=
  match a with
  | none => b
  | some v => if v = 0 then b else v

/-- getattr(getattr(fm, "position", None), "index", None). -/
def scene_own_index (fm : FrameMetadata) : Option ℤ :=
  fm.position.bind (fun p => p.index)

/-- getattr(getattr(getattr(fm, "channels", [None])[0], "position", None),
"index", None). -/
def scene_channel_index (fm : FrameMetadata) : Option ℤ :=
  (fm.firstChannel.bind (fun c => c.position)).bind (fun p => p.index)

/-- extract_scene_to_position_index (plates.py lines 190-222). The
frame_metadata argument models rdr.frame_metadata; the dict built over
range(num_scenes) is the association list in scene order; the Python
or-chain is the nested truthyOr. -/
def extract_scene_to_position_index (frame_metadata : Nat → FrameMetadata)
    (num_scenes : Nat) : List (Nat × ℤ) :=
  (List.range num_scenes).map (fun scene_index =>
    let fm := frame_metadata scene_index
    (scene_index,
      truthyOr (scene_own_index fm)
        (truthyOr (scene_channel_index fm) (scene_index : ℤ))))

/-- Squared Euclidean distance key of find_closest_well
(plates.py line 235). -/
def sqDist (x y : ℚ) (w : PlateWell) : ℚ :=
  (x - w.center_x) ^ 2 + (y - w.center_y) ^ 2

/-- Accumulating minimum: Python min(wells, key=...) keeps the first
element attaining the minimum key, i.e. replaces the accumulator only on
a strictly smaller key. -/
def minAcc (x y : ℚ) (b : PlateWell) (ws : List PlateWell) : PlateWell :=
  ws.foldl (fun acc w => if sqDist x y w < sqDist x y acc then w else acc) b

/-- find_closest_well (plates.py lines 225-237). min of an empty iterable
raises ValueError, modelled as none. -/
def find_closest_well (x y : ℚ) (wells : List PlateWell) : Option WellPosition :=
  match wells with
  | [] => none
  | w :: ws =>
    let best := minAcc x y w ws
    some { row := best.row, col := best.col }

/-- map_scenes_to_wells (plates.py lines 240-254): iterates the
scene_to_position items in order; position_xy[pos_index] raising KeyError
is lookupError; find_closest_well on an empty well sequence raising
ValueError is emptyWells. -/
def map_scenes_to_wells : List (Nat × ℤ) → List (ℤ × (ℚ × ℚ)) → List PlateWell →
    Except PlateError (List (Nat × WellPosition))
  | [], _, _ => .ok []
  | (scene_index, pos_index) :: rest, position_xy, wells =>
    match position_xy.lookup pos_index with
    | none => .error (.lookupError pos_index)
    | some xy =>
      match find_closest_well xy.1 xy.2 wells with
      | none => .error .emptyWells
      | some wp =>
        (map_scenes_to_wells rest position_xy wells).map
          (fun m => (scene_index, wp) :: m)

/-- Uniform translation of a well center; row and col are untouched.
Used to state the translation-invariance property of find_closest_well. -/
def translateWell (tx ty : ℚ) (w : PlateWell) : PlateWell :=
  { w with center_x := w.center_x + tx, center_y := w.center_y + ty }

/-- The well record generate_plate_geometry builds for row index ri with
label row and column index ci with label col. -/
def wellAt (spec : PlateSpec) (ri : Nat) (row : String) (ci : Nat) (col : String) : PlateWell where
  row := row
  col := col
  center_x := spec.a1_offset_mm.1 * 1000 - spec.plate_width_mm / 2 * 1000 +
    (ci : ℚ) * spec.well_spacing_um
  center_y := spec.a1_offset_mm.2 * 1000 - spec.plate_height_mm / 2 * 1000 +
    (ri : ℚ) * spec.well_spacing_um

attribute [local semireducible] Rat.mul Rat.add Rat.sub Rat.inv Rat.ofScientific

/-! Helper lemmas -/

theorem extentOf_cons (a : ℚ) (l : List ℚ) :
    extentOf (a :: l) = some (l.foldl max a - l.foldl min a) := rfl

theorem find?_eq_none_of_all_false {exps : List Experiment}
    (h : ∀ e ∈ exps, e.hasXYPosLoop = false) :
    exps.find? (fun e => e.hasXYPosLoop) = none := by
  rw [List.find?_eq_none]
  intro e he
  simp [h e he]

theorem full_96_x_val : full_96_x = 99000 := by decide

theorem full_96_y_val : full_96_y = 63000 := by decide

theorem minAcc_nil (x y : ℚ) (b : PlateWell) : minAcc x y b [] = b := rfl

theorem minAcc_cons (x y : ℚ) (b w : PlateWell) (ws : List PlateWell) :
    minAcc x y b (w :: ws) =
      minAcc x y (if sqDist x y w < sqDist x y b then w else b) ws := rfl

/-- The accumulating minimum either keeps the seed (when nothing in the list
beats it strictly) or lands on the first element of the list attaining the
minimum, which then also beats the seed strictly. -/
theorem minAcc_cases (x y : ℚ) (ws : List PlateWell) : ∀ b : PlateWell,
    (minAcc x y b ws = b ∧ ∀ w ∈ ws, sqDist x y b ≤ sqDist x y w) ∨
    (∃ i, ∃ hi : i < ws.length,
      minAcc x y b ws = ws[i] ∧ sqDist x y ws[i] < sqDist x y b ∧
      (∀ w ∈ ws, sqDist x y ws[i] ≤ sqDist x y w) ∧
      ∀ j, ∀ hj : j < ws.length, j < i → sqDist x y ws[i] < sqDist x y ws[j]) := by
  induction ws with
  | nil =>
    intro b
    left
    exact ⟨rfl, by simp⟩
  | cons w ws ih =>
    intro b
    rw [minAcc_cons]
    by_cases hw : sqDist x y w < sqDist x y b
    · rw [if_pos hw]
      rcases ih w with ⟨heq, hmin⟩ | ⟨i, hi, heq, hlt, hmin, hfirst⟩
      · right
        refine ⟨0, by simp, by simpa using heq, by simpa using hw, ?_, ?_⟩
        · intro w2 hw2
          rcases List.mem_cons.mp hw2 with rfl | h2
          · simp
          · simpa using hmin w2 h2
        · intro j hj hji
          omega
      · right
        refine ⟨i + 1, by simpa using Nat.succ_lt_succ hi, by simpa using heq, ?_, ?_, ?_⟩
        · simpa using hlt.trans hw
        · intro w2 hw2
          rcases List.mem_cons.mp hw2 with rfl | h2
          · simpa using hlt.le
          · simpa using hmin w2 h2
        · intro j hj hji
          cases j with
          | zero => simpa using hlt
          | succ j' =>
            have hj' : j' < ws.length := by simpa using hj
            simpa using hfirst j' hj' (by omega)
    · rw [if_neg hw]
      rcases ih b with ⟨heq, hmin⟩ | ⟨i, hi, heq, hlt, hmin, hfirst⟩
      · left
        refine ⟨heq, ?_⟩
        intro w2 hw2
        rcases List.mem_cons.mp hw2 with rfl | h2
        · exact not_lt.mp hw
        · exact hmin w2 h2
      · right
        refine ⟨i + 1, by simpa using Nat.succ_lt_succ hi, by simpa using heq, ?_, ?_, ?_⟩
        · simpa using hlt
        · intro w2 hw2
          rcases List.mem_cons.mp hw2 with rfl | h2
          · simpa using (hlt.trans_le (not_lt.mp hw)).le
          · simpa using hmin w2 h2
        · intro j hj hji
          cases j with
          | zero => simpa using hlt.trans_le (not_lt.mp hw)
          | succ j' =>
            have hj' : j' < ws.length := by simpa using hj
            simpa using hfirst j' hj' (by omega)

theorem find_closest_well_cons (x y : ℚ) (w : PlateWell) (ws : List PlateWell) :
    find_closest_well x y (w :: ws) =
      some { row := (minAcc x y w ws).row, col := (minAcc x y w ws).col } := rfl

/-- Engine lemma: on a non-empty well list, find_closest_well returns the
row/col of the first well attaining the minimum squared distance. -/
theorem find_closest_well_min (x y : ℚ) (wells : List PlateWell) (h : wells ≠ []) :
    ∃ i, ∃ hi : i < wells.length,
      find_closest_well x y wells = some { row := wells[i].row, col := wells[i].col } ∧
      (∀ w ∈ wells, sqDist x y wells[i] ≤ sqDist x y w) ∧
      ∀ j, ∀ hj : j < wells.length, j < i → sqDist x y wells[i] < sqDist x y wells[j] := by
  match wells with
  | [] => exact absurd rfl h
  | w :: ws =>
    rcases minAcc_cases x y ws w with ⟨heq, hmin⟩ | ⟨i, hi, heq, hlt, hmin, hfirst⟩
    · refine ⟨0, by simp, ?_, ?_, ?_⟩
      · rw [find_closest_well_cons, heq]
        simp
      · intro w2 hw2
        rcases List.mem_cons.mp hw2 with rfl | h2
        · simp
        · simpa using hmin w2 h2
      · intro j hj hji
        omega
    · refine ⟨i + 1, by simpa using Nat.succ_lt_succ hi, ?_, ?_, ?_⟩
      · rw [find_closest_well_cons, heq]
        simp
      · intro w2 hw2
        rcases List.mem_cons.mp hw2 with rfl | h2
        · simpa using hlt.le
        · simpa using hmin w2 h2
      · intro j hj hji
        cases j with
        | zero => simpa using hlt
        | succ j' =>
          have hj' : j' < ws.length := by simpa using hj
          simpa using hfirst j' hj' (by omega)

theorem sqDist_translate (x y tx ty : ℚ) (w : PlateWell) :
    sqDist (x + tx) (y + ty) (translateWell tx ty w) = sqDist x y w := by
  simp only [sqDist, translateWell]
  ring

theorem minAcc_translate (x y tx ty : ℚ) (ws : List PlateWell) : ∀ b : PlateWell,
    minAcc (x + tx) (y + ty) (translateWell tx ty b) (ws.map (translateWell tx ty)) =
      translateWell tx ty (minAcc x y b ws) := by
  induction ws with
  | nil =>
    intro b
    rfl
  | cons w ws ih =>
    intro b
    rw [List.map_cons, minAcc_cons, minAcc_cons, sqDist_translate, sqDist_translate]
    by_cases hc : sqDist x y w < sqDist x y b
    · rw [if_pos hc, if_pos hc, ih]
    · rw [if_neg hc, if_neg hc, ih]

theorem generate_plate_geometry_eq (spec : PlateSpec) :
    generate_plate_geometry spec =
      ((spec.rows.enumFrom 0).map (fun rr =>
        (spec.cols.enumFrom 0).map (fun cc => wellAt spec rr.1 rr.2 cc.1 cc.2))).flatten := rfl

theorem gpg_length_aux (spec : PlateSpec) (rows : List String) :
    ∀ (n : Nat),
      ((rows.enumFrom n).map (fun rr =>
        (spec.cols.enumFrom 0).map (fun cc => wellAt spec rr.1 rr.2 cc.1 cc.2))).flatten.length =
        rows.length * spec.cols.length := by
  induction rows with
  | nil =>
    intro n
    simp
  | cons row rest ih =>
    intro n
    simp only [List.enumFrom_cons, List.map_cons, List.flatten_cons, List.length_append,
      List.length_map, List.enumFrom_length, ih, List.length_cons]
    ring

theorem gpg_getElem_aux (spec : PlateSpec) (rows : List String) :
    ∀ (n r c : Nat) (hr : r < rows.length) (hc : c < spec.cols.length),
      ((rows.enumFrom n).map (fun rr =>
        (spec.cols.enumFrom 0).map (fun cc =>
          wellAt spec rr.1 rr.2 cc.1 cc.2))).flatten[r * spec.cols.length + c]? =
        some (wellAt spec (n + r) rows[r] c spec.cols[c]) := by
  induction rows with
  | nil =>
    intro n r c hr hc
    simp at hr
  | cons row rest ih =>
    intro n r c hr hc
    rw [List.enumFrom_cons, List.map_cons, List.flatten_cons]
    cases r with
    | zero =>
      have hlt : 0 * spec.cols.length + c <
          ((spec.cols.enumFrom 0).map (fun cc =>
            wellAt spec (n, row).1 (n, row).2 cc.1 cc.2)).length := by
        simpa using hc
      rw [List.getElem?_append, if_pos hlt]
      simp [List.getElem?_enumFrom, hc]
    | succ r' =>
      have hge : ((spec.cols.enumFrom 0).map (fun cc =>
          wellAt spec (n, row).1 (n, row).2 cc.1 cc.2)).length ≤
          (r' + 1) * spec.cols.length + c := by
        simp [Nat.succ_mul]
        omega
      rw [List.getElem?_append_right hge]
      have hr' : r' < rest.length := by simpa using hr
      have harith : (r' + 1) * spec.cols.length + c -
          ((spec.cols.enumFrom 0).map (fun cc =>
            wellAt spec (n, row).1 (n, row).2 cc.1 cc.2)).length =
          r' * spec.cols.length + c := by
        simp [Nat.succ_mul]
        omega
      rw [harith, ih (n + 1) r' c hr' hc]
      have h1 : n + 1 + r' = n + (r' + 1) := by omega
      rw [h1]
      simp

theorem find_closest_well_isSome (x y : ℚ) (wells : List PlateWell) (h : wells ≠ []) :
    ∃ wp, find_closest_well x y wells = some wp := by
  match wells with
  | [] => exact absurd rfl h
  | w :: ws => exact ⟨_, rfl⟩

/-! Claim theorems -/

/-- C8: the 96-well catalog entry has exactly 8 rows labeled H,G,F,E,D,C,B,A
in that order, 12 columns labeled "1" through "12", well spacing 9000 µm,
footprint 126.6 mm × 85.7 mm, A1 offset (14.3 mm, 11.36 mm), and
len(rows) * len(cols) = 96, the well count implied by the name "96". -/
theorem plate96_catalog_entry :
    PLATE_96.rows = ["H", "G", "F", "E", "D", "C", "B", "A"] ∧
    PLATE_96.cols = ["1", "2", "3", "4", "5", "6", "7", "8", "9", "10", "11", "12"] ∧
    PLATE_96.well_spacing_um = 9000 ∧
    PLATE_96.plate_width_mm = 126.6 ∧
    PLATE_96.plate_height_mm = 85.7 ∧
    PLATE_96.a1_offset_mm = (14.3, 11.36) ∧
    PLATE_96.rows.length * PLATE_96.cols.length = 96 ∧
    PLATE_96.name = "96" := by
  refine ⟨by decide, by decide, rfl, rfl, rfl, rfl, by decide, rfl⟩

/-- C3: when no experiment entry is flagged as containing an XYPosLoop
(including the empty collection), both determine_plate_spec and
extract_position_stage_xy_um fail with the missing-position-metadata error;
in particular neither returns a default spec or mapping. -/
theorem missing_position_metadata_error (exps : List Experiment)
    (h : ∀ e ∈ exps, e.hasXYPosLoop = false) :
    determine_plate_spec exps = .error .missingPositionMetadata ∧
    extract_position_stage_xy_um exps = .error .missingPositionMetadata := by
  have hf := find?_eq_none_of_all_false h
  constructor
  · simp [determine_plate_spec, hf]
  · simp [extract_position_stage_xy_um, hf]

theorem missing_position_metadata_error_witness :
    determine_plate_spec [] = .error .missingPositionMetadata ∧
    extract_position_stage_xy_um [] = .error .missingPositionMetadata :=
  missing_position_metadata_error [] (by simp)

/-- C2: on a metadata collection whose first XYPosLoop entry has a non-empty
position list, determine_plate_spec returns the 96-well spec iff the
observed x extent is at most (12-1)*9000 + 1000 µm and the observed y
extent is at most (8-1)*9000 + 1000 µm (inclusive at the tolerance edge);
otherwise it fails with unsupportedPlateGeometry carrying the observed and
expected extents. -/
theorem determine_plate_spec_96well_iff (exps : List Experiment) (e : Experiment)
    (hfind : exps.find? (fun x => x.hasXYPosLoop) = some e)
    (hne : e.points ≠ []) :
    ∃ x_extent y_extent,
      extentOf (negXs e.points) = some x_extent ∧
      extentOf (negYs e.points) = some y_extent ∧
      (determine_plate_spec exps = .ok PLATE_96 ↔
        (x_extent ≤ (12 - 1) * 9000 + 1000 ∧ y_extent ≤ (8 - 1) * 9000 + 1000)) ∧
      (¬(x_extent ≤ (12 - 1) * 9000 + 1000 ∧ y_extent ≤ (8 - 1) * 9000 + 1000) →
        determine_plate_spec exps =
          .error (.unsupportedPlateGeometry x_extent y_extent
            ((12 - 1) * 9000) ((8 - 1) * 9000))) := by
  match hp : e.points with
  | [] => exact absurd hp hne
  | p :: ps =>
    obtain ⟨xv, hxv⟩ : ∃ v, extentOf (negXs (p :: ps)) = some v := ⟨_, rfl⟩
    obtain ⟨yv, hyv⟩ : ∃ v, extentOf (negYs (p :: ps)) = some v := ⟨_, rfl⟩
    have hfull_x : full_96_x + tolerance_um = (12 - 1) * 9000 + 1000 := by decide
    have hfull_y : full_96_y + tolerance_um = (8 - 1) * 9000 + 1000 := by decide
    have hfx : full_96_x = (12 - 1) * 9000 := by decide
    have hfy : full_96_y = (8 - 1) * 9000 := by decide
    refine ⟨xv, yv, hxv, hyv, ?_, ?_⟩
    · simp only [determine_plate_spec, hfind, hp, hxv, hyv]
      by_cases hc : xv ≤ full_96_x + tolerance_um ∧ yv ≤ full_96_y + tolerance_um
      · rw [if_pos hc]
        simp only [hfull_x, hfull_y] at hc
        simp [hc]
      · rw [if_neg hc]
        simp only [hfull_x, hfull_y] at hc
        simp [hc]
    · intro hc
      simp only [determine_plate_spec, hfind, hp, hxv, hyv]
      rw [← hfull_x, ← hfull_y] at hc
      rw [if_neg hc, hfx, hfy]

theorem determine_plate_spec_96well_iff_witness :
    ∃ x_extent y_extent,
      extentOf (negXs (Experiment.mk true [StagePoint.mk 0 0,
        StagePoint.mk (-9000) (-9000)]).points) = some x_extent ∧
      extentOf (negYs (Experiment.mk true [StagePoint.mk 0 0,
        StagePoint.mk (-9000) (-9000)]).points) = some y_extent ∧
      (determine_plate_spec [Experiment.mk true [StagePoint.mk 0 0,
          StagePoint.mk (-9000) (-9000)]] = .ok PLATE_96 ↔
        (x_extent ≤ (12 - 1) * 9000 + 1000 ∧ y_extent ≤ (8 - 1) * 9000 + 1000)) ∧
      (¬(x_extent ≤ (12 - 1) * 9000 + 1000 ∧ y_extent ≤ (8 - 1) * 9000 + 1000) →
        determine_plate_spec [Experiment.mk true [StagePoint.mk 0 0,
            StagePoint.mk (-9000) (-9000)]] =
          .error (.unsupportedPlateGeometry x_extent y_extent
            ((12 - 1) * 9000) ((8 - 1) * 9000))) :=
  determine_plate_spec_96well_iff
    [Experiment.mk true [StagePoint.mk 0 0, StagePoint.mk (-9000) (-9000)]]
    (Experiment.mk true [StagePoint.mk 0 0, StagePoint.mk (-9000) (-9000)])
    (by decide) (by decide)

/-- C4: for every PlateSpec, generate_plate_geometry returns one PlateWell
per (row, column) combination, in row-major order, the well at row index r
and column index c being centered at
a1_offset_mm * 1000 - (plate dimensions / 2) * 1000 + (c, r) * spacing;
for PLATE_96 this yields exactly 96 distinct records, the first centered
exactly at a1_offset_mm * 1000 minus the plate center. -/
theorem generate_plate_geometry_correct :
    (∀ spec : PlateSpec,
      (generate_plate_geometry spec).length = spec.rows.length * spec.cols.length ∧
      ∀ r c, ∀ hr : r < spec.rows.length, ∀ hc : c < spec.cols.length,
        (generate_plate_geometry spec)[r * spec.cols.length + c]? =
          some (wellAt spec r spec.rows[r] c spec.cols[c])) ∧
    (generate_plate_geometry PLATE_96).length = 96 ∧
    (generate_plate_geometry PLATE_96).Nodup ∧
    (generate_plate_geometry PLATE_96)[0]? =
      some { row := "H", col := "1",
             center_x := 14.3 * 1000 - 126.6 / 2 * 1000,
             center_y := 11.36 * 1000 - 85.7 / 2 * 1000 } := by
  refine ⟨?_, ?_, by decide, by decide⟩
  · intro spec
    constructor
    · rw [generate_plate_geometry_eq]
      exact gpg_length_aux spec spec.rows 0
    · intro r c hr hc
      rw [generate_plate_geometry_eq, gpg_getElem_aux spec spec.rows 0 r c hr hc]
      simp
  · rw [generate_plate_geometry_eq, gpg_length_aux PLATE_96 PLATE_96.rows 0]
    decide

theorem generate_plate_geometry_correct_witness :
    (generate_plate_geometry PLATE_96)[1 * PLATE_96.cols.length + 2]? =
      some (wellAt PLATE_96 1 "G" 2 "3") := by
  have h := (generate_plate_geometry_correct.1 PLATE_96).2 1 2 (by decide) (by decide)
  have hrow : PLATE_96.rows[1] = "G" := by decide
  have hcol : PLATE_96.cols[2] = "3" := by decide
  rw [h, hrow, hcol]

/-- C5: on any non-empty well sequence, find_closest_well returns the
WellPosition (row and col copied) of the well minimizing the squared
Euclidean distance to the query point, and among several minimizers it
returns the first one in sequence order (every strictly earlier well has a
strictly larger squared distance). -/
theorem find_closest_well_nearest (x y : ℚ) (wells : List PlateWell)
    (h : wells ≠ []) :
    ∃ i, ∃ hi : i < wells.length,
      find_closest_well x y wells =
        some { row := wells[i].row, col := wells[i].col } ∧
      (∀ w ∈ wells, sqDist x y wells[i] ≤ sqDist x y w) ∧
      ∀ j, ∀ hj : j < wells.length, j < i →
        sqDist x y wells[i] < sqDist x y wells[j] :=
  find_closest_well_min x y wells h

theorem find_closest_well_nearest_witness :
    ∃ i, ∃ hi : i < ([(⟨"A", "1", 0, 0⟩ : PlateWell), (⟨"A", "2", 10, 0⟩ : PlateWell)] : List PlateWell).length,
      find_closest_well 9 0 [(⟨"A", "1", 0, 0⟩ : PlateWell), (⟨"A", "2", 10, 0⟩ : PlateWell)] =
        some { row := ([(⟨"A", "1", 0, 0⟩ : PlateWell), (⟨"A", "2", 10, 0⟩ : PlateWell)] : List PlateWell)[i].row,
               col := ([(⟨"A", "1", 0, 0⟩ : PlateWell), (⟨"A", "2", 10, 0⟩ : PlateWell)] : List PlateWell)[i].col } ∧
      (∀ w ∈ ([(⟨"A", "1", 0, 0⟩ : PlateWell), (⟨"A", "2", 10, 0⟩ : PlateWell)] : List PlateWell),
        sqDist 9 0 ([(⟨"A", "1", 0, 0⟩ : PlateWell), (⟨"A", "2", 10, 0⟩ : PlateWell)] : List PlateWell)[i] ≤ sqDist 9 0 w) ∧
      ∀ j, ∀ hj : j < ([(⟨"A", "1", 0, 0⟩ : PlateWell), (⟨"A", "2", 10, 0⟩ : PlateWell)] : List PlateWell).length, j < i →
        sqDist 9 0 ([(⟨"A", "1", 0, 0⟩ : PlateWell), (⟨"A", "2", 10, 0⟩ : PlateWell)] : List PlateWell)[i] <
          sqDist 9 0 ([(⟨"A", "1", 0, 0⟩ : PlateWell), (⟨"A", "2", 10, 0⟩ : PlateWell)] : List PlateWell)[j] :=
  find_closest_well_nearest 9 0
    [(⟨"A", "1", 0, 0⟩ : PlateWell), (⟨"A", "2", 10, 0⟩ : PlateWell)] (by decide)

/-- C9: find_closest_well is invariant under uniform translation:
translating the query point and every well center by the same vector
(tx, ty) yields the same WellPosition as the untranslated call. -/
theorem find_closest_well_translation_invariant (x y tx ty : ℚ)
    (wells : List PlateWell) :
    find_closest_well (x + tx) (y + ty) (wells.map (translateWell tx ty)) =
      find_closest_well x y wells := by
  cases wells with
  | nil => rfl
  | cons w ws =>
    rw [List.map_cons, find_closest_well_cons, find_closest_well_cons,
      minAcc_translate]
    rfl

/-- C10: find_closest_well fails (returns no WellPosition) on the empty
well sequence, and on every non-empty sequence it returns the row and col
of some well of the sequence. -/
theorem find_closest_well_empty_and_membership (x y : ℚ)
    (wells : List PlateWell) :
    find_closest_well x y [] = none ∧
    (wells ≠ [] → ∃ w ∈ wells,
      find_closest_well x y wells = some { row := w.row, col := w.col }) := by
  refine ⟨rfl, ?_⟩
  intro h
  obtain ⟨i, hi, hfind, -, -⟩ := find_closest_well_min x y wells h
  exact ⟨wells[i], List.getElem_mem hi, hfind⟩

theorem find_closest_well_empty_and_membership_witness :
    find_closest_well 5 5 [] = none ∧
    ∃ w ∈ ([(⟨"B", "4", 1, 2⟩ : PlateWell)] : List PlateWell),
      find_closest_well 5 5 [(⟨"B", "4", 1, 2⟩ : PlateWell)] = some { row := w.row, col := w.col } :=
  ⟨(find_closest_well_empty_and_membership 5 5 [(⟨"B", "4", 1, 2⟩ : PlateWell)]).1,
   (find_closest_well_empty_and_membership 5 5 [(⟨"B", "4", 1, 2⟩ : PlateWell)]).2 (by decide)⟩

theorem extract_scene_getElem (frame_metadata : Nat → FrameMetadata)
    (num_scenes s : Nat) (h : s < num_scenes) :
    (extract_scene_to_position_index frame_metadata num_scenes)[s]? =
      some (s, truthyOr (scene_own_index (frame_metadata s))
        (truthyOr (scene_channel_index (frame_metadata s)) (s : ℤ))) := by
  simp [extract_scene_to_position_index, List.getElem?_range, h]

/-- C1 counterexample: a scene (index 1) whose own metadata carries the
position-index value 0 is NOT mapped to 0: the Python or-chain treats 0 as
falsy, so the mapper falls through to the scene's own index and returns 1. -/
theorem scene_to_position_zero_counterexample :
    scene_own_index ((fun _ : Nat =>
      FrameMetadata.mk (some (PositionMeta.mk (some 0))) none) 1) = some 0 ∧
    (extract_scene_to_position_index
      (fun _ : Nat => FrameMetadata.mk (some (PositionMeta.mk (some 0))) none) 2)[1]? =
      some (1, 1) ∧
    ¬((extract_scene_to_position_index
      (fun _ : Nat => FrameMetadata.mk (some (PositionMeta.mk (some 0))) none) 2)[1]? =
      some (1, 0)) := by
  refine ⟨rfl, rfl, by decide⟩

/-- C1 (amended): for every scene index, the mapper resolves the position
index by taking the first present AND nonzero (truthy) value in the order:
(a) the scene metadata's own position-index; (b) the first channel's
position-index; falling back to (c) the scene's own index when both are
absent or zero. A present position-index equal to 0 is treated like an
absent one. -/
theorem scene_to_position_resolution (frame_metadata : Nat → FrameMetadata)
    (num_scenes s : Nat) (h : s < num_scenes) :
    ∃ v : ℤ,
      (extract_scene_to_position_index frame_metadata num_scenes)[s]? = some (s, v) ∧
      (∀ a, scene_own_index (frame_metadata s) = some a → a ≠ 0 → v = a) ∧
      ((scene_own_index (frame_metadata s) = none ∨
        scene_own_index (frame_metadata s) = some 0) →
        ∀ b, scene_channel_index (frame_metadata s) = some b → b ≠ 0 → v = b) ∧
      ((scene_own_index (frame_metadata s) = none ∨
        scene_own_index (frame_metadata s) = some 0) →
        (scene_channel_index (frame_metadata s) = none ∨
          scene_channel_index (frame_metadata s) = some 0) →
        v = s) := by
  refine ⟨_, extract_scene_getElem frame_metadata num_scenes s h, ?_, ?_, ?_⟩
  · intro a ha hane
    rw [ha]
    simp [truthyOr, hane]
  · rintro (hown | hown) b hb hbne <;> rw [hown, hb] <;> simp [truthyOr, hbne]
  · rintro (hown | hown) (hch | hch) <;> rw [hown, hch] <;> simp [truthyOr]

theorem scene_to_position_resolution_witness :
    ∃ v : ℤ,
      (extract_scene_to_position_index
        (fun _ : Nat => FrameMetadata.mk none none) 1)[0]? = some (0, v) ∧
      (∀ a, scene_own_index ((fun _ : Nat => FrameMetadata.mk none none) 0) =
          some a → a ≠ 0 → v = a) ∧
      ((scene_own_index ((fun _ : Nat => FrameMetadata.mk none none) 0) = none ∨
        scene_own_index ((fun _ : Nat => FrameMetadata.mk none none) 0) = some 0) →
        ∀ b, scene_channel_index ((fun _ : Nat => FrameMetadata.mk none none) 0) =
          some b → b ≠ 0 → v = b) ∧
      ((scene_own_index ((fun _ : Nat => FrameMetadata.mk none none) 0) = none ∨
        scene_own_index ((fun _ : Nat => FrameMetadata.mk none none) 0) = some 0) →
        (scene_channel_index ((fun _ : Nat => FrameMetadata.mk none none) 0) = none ∨
          scene_channel_index ((fun _ : Nat => FrameMetadata.mk none none) 0) = some 0) →
        v = 0) :=
  scene_to_position_resolution (fun _ => FrameMetadata.mk none none) 1 0 (by decide)

/-- C7 counterexample: with an empty well sequence, every resolved position
index being present in the table does not make map_scenes_to_wells return a
mapping: it fails (with the empty-wells error from min(), not a lookup
error). -/
theorem map_scenes_empty_wells_counterexample :
    (∀ sp ∈ ([(0, (0 : ℤ))] : List (Nat × ℤ)),
      (([((0 : ℤ), ((0 : ℚ), (0 : ℚ)))] : List (ℤ × (ℚ × ℚ))).lookup sp.2) ≠ none) ∧
    map_scenes_to_wells [(0, 0)] [((0 : ℤ), ((0 : ℚ), (0 : ℚ)))] [] =
      .error .emptyWells ∧
    ¬∃ m, map_scenes_to_wells [(0, 0)] [((0 : ℤ), ((0 : ℚ), (0 : ℚ)))] [] = .ok m := by
  refine ⟨by decide, rfl, ?_⟩
  rintro ⟨m, hm⟩
  have h2 : (Except.error PlateError.emptyWells :
      Except PlateError (List (Nat × WellPosition))) = .ok m := hm
  exact Except.noConfusion h2

/-- C7 (amended): for every scene-to-position mapping, position table and
NON-EMPTY well sequence: if some scene's resolved position index has no
entry in the position table, map_scenes_to_wells fails with a lookup
error; if every resolved position index is present, it returns a
WellPosition for every scene of the input mapping. (On an empty well
sequence the function instead fails on min() of the empty well sequence.) -/
theorem map_scenes_to_wells_lookup (stp : List (Nat × ℤ))
    (pxy : List (ℤ × (ℚ × ℚ))) (wells : List PlateWell) (hw : wells ≠ []) :
    ((∃ sp ∈ stp, pxy.lookup sp.2 = none) →
      ∃ p, map_scenes_to_wells stp pxy wells = .error (.lookupError p) ∧
        pxy.lookup p = none) ∧
    ((∀ sp ∈ stp, pxy.lookup sp.2 ≠ none) →
      ∃ m, map_scenes_to_wells stp pxy wells = .ok m ∧
        m.map Prod.fst = stp.map Prod.fst) := by
  induction stp with
  | nil =>
    constructor
    · rintro ⟨sp, hsp, -⟩
      exact absurd hsp (List.not_mem_nil sp)
    · intro _
      exact ⟨[], rfl, rfl⟩
  | cons hd rest ih =>
    obtain ⟨s, p⟩ := hd
    constructor
    · rintro ⟨sp, hsp, hnone⟩
      rcases List.mem_cons.mp hsp with rfl | hmem
      · exact ⟨p, by simp [map_scenes_to_wells, hnone], hnone⟩
      · cases hl : pxy.lookup p with
        | none => exact ⟨p, by simp [map_scenes_to_wells, hl], hl⟩
        | some xy =>
          obtain ⟨wp, hwp⟩ := find_closest_well_isSome xy.1 xy.2 wells hw
          obtain ⟨q, hq, hqn⟩ := ih.1 ⟨sp, hmem, hnone⟩
          refine ⟨q, ?_, hqn⟩
          simp [map_scenes_to_wells, hl, hwp, hq, Except.map]
    · intro hall
      have hp : pxy.lookup p ≠ none := hall (s, p) (List.mem_cons_self _ _)
      cases hl : pxy.lookup p with
      | none => exact absurd hl hp
      | some xy =>
        obtain ⟨wp, hwp⟩ := find_closest_well_isSome xy.1 xy.2 wells hw
        obtain ⟨m, hm, hmf⟩ := ih.2 (fun sp hsp => hall sp (List.mem_cons_of_mem _ hsp))
        refine ⟨(s, wp) :: m, ?_, ?_⟩
        · simp [map_scenes_to_wells, hl, hwp, hm, Except.map]
        · simp [hmf]

theorem map_scenes_to_wells_lookup_witness :
    ∃ m, map_scenes_to_wells [(0, 0)] [((0 : ℤ), ((0 : ℚ), (0 : ℚ)))]
        [(⟨"B", "4", 1, 2⟩ : PlateWell)] = .ok m ∧
      m.map Prod.fst = ([(0, (0 : ℤ))] : List (Nat × ℤ)).map Prod.fst :=
  (map_scenes_to_wells_lookup [(0, 0)] [((0 : ℤ), ((0 : ℚ), (0 : ℚ)))]
    [(⟨"B", "4", 1, 2⟩ : PlateWell)] (by decide)).2 (by decide)

/-- C6: end-to-end over the 96-well catalog geometry, with positions 0..3
at (0,0), (9000,0), (0,9000), (9000,9000) µm and scenes 0 and 1 both
mapped to position index 1, map_scenes_to_wells assigns both scenes the
same WellPosition, and that WellPosition is (the row/col of) the catalog
well whose center is nearest to (9000, 0). -/
theorem map_scenes_end_to_end :
    ∃ wp : WellPosition,
      map_scenes_to_wells [(0, 1), (1, 1)]
        [(0, ((0 : ℚ), (0 : ℚ))), (1, (9000, 0)), (2, (0, 9000)), (3, (9000, 9000))]
        (generate_plate_geometry PLATE_96) = .ok [(0, wp), (1, wp)] ∧
      ∃ w ∈ generate_plate_geometry PLATE_96,
        wp = { row := w.row, col := w.col } ∧
        ∀ w2 ∈ generate_plate_geometry PLATE_96,
          sqDist 9000 0 w ≤ sqDist 9000 0 w2 := by
  have hlen96 : (generate_plate_geometry PLATE_96).length = 96 := by
    rw [generate_plate_geometry_eq, gpg_length_aux PLATE_96 PLATE_96.rows 0]
    decide
  have hne : generate_plate_geometry PLATE_96 ≠ [] := by
    intro hnil
    rw [hnil] at hlen96
    simp at hlen96
  obtain ⟨i, hi, hfind, hmin, -⟩ := find_closest_well_min 9000 0
    (generate_plate_geometry PLATE_96) hne
  have hlk : (([(0, ((0 : ℚ), (0 : ℚ))), (1, (9000, 0)), (2, (0, 9000)),
      (3, (9000, 9000))] : List (ℤ × (ℚ × ℚ))).lookup 1) = some (9000, 0) := by
    decide
  refine ⟨{ row := (generate_plate_geometry PLATE_96)[i].row,
            col := (generate_plate_geometry PLATE_96)[i].col }, ?_, ?_⟩
  · simp only [map_scenes_to_wells, hlk, hfind, Except.map]
  · exact ⟨(generate_plate_geometry PLATE_96)[i], List.getElem_mem hi, rfl, hmin⟩

end BioioNd2
